import Mathlib

/-!
# Verification of the markdown-sidebar content pipeline

A shallow embedding of the content-synchronization and rendering pipeline of
the `vs-markdown-sidebar` extension (`src/extension.ts`,
`src/markdownEditorProvider.ts`), together with theorems settling the frozen
claims about it.

Conventions of the embedding:
* the host editor's asynchronous I/O operations (file read, file write) are
  modelled by passing their outcome (`Except`) as an explicit argument;
* `setTimeout` / `clearTimeout` are modelled by a list of pending fire times
  plus the stored handle (`_autoSaveTimeout`), exactly mirroring which
  timeouts the code creates and clears;
* user-visible notifications (`showInformationMessage`, `showWarningMessage`,
  `showErrorMessage`) are collected in a `Msg` list;
* JavaScript's `\s` character class is modelled on its ASCII members, which
  covers every string considered here.
-/

namespace MarkdownSidebar

/-- `MAX_RECENT_FILES` from `markdownEditorProvider.ts`. -/
def MAX_RECENT_FILES : Nat := 10

/-- `_addToRecentFiles` (the spec's `RecentFilesStore.touch`): remove any
existing occurrence (`filter(f => f !== filePath)`), `unshift` to the front,
`slice(0, MAX_RECENT_FILES)`. -/
def addToRecentFiles (recentFiles : List String) (filePath : String) : List String :=
  (filePath :: recentFiles.filter (fun f => f ≠ filePath)).take MAX_RECENT_FILES

/-- A user-visible notification raised through the host editor. -/
inductive Msg where
  | info (text : String)
  | warning (text : String)
  | error (text : String)
  deriving DecidableEq, Repr

/-- Whether a notification is the failure variant (`showErrorMessage`). -/
def Msg.isError : Msg → Bool
  | .error _ => true
  | _ => false

/-- `_getFilename`: the final path segment, splitting on both separators. -/
def getFilename (fsPath : String) : String :=
  (fsPath.split (fun c => c = '/' ∨ c = '\\')).getLastD ""

/-- The extension-host side of the session (`MarkdownEditorProvider`'s fields,
plus the observable effects: pending timeouts, performed writes).
`pendingTimers` holds the fire times of the live (created, not yet cleared or
fired) timeouts; `autoSaveTimeout` is the handle stored in `_autoSaveTimeout`,
identified by its fire time. -/
structure ProvState where
  currentFileUri : Option String
  currentContent : String
  pendingTimers : List Nat
  autoSaveTimeout : Option Nat
  recentFiles : List String
  lastFile : Option String
  writes : List (String × String)
  deriving DecidableEq, Repr

/-- The provider before any file is opened (`Empty` session state). -/
def emptyProv : ProvState :=
  { currentFileUri := none, currentContent := "", pendingTimers := [],
    autoSaveTimeout := none, recentFiles := [], lastFile := none, writes := [] }

/-- `_saveLastFile`: record the last-opened path and touch the recent list. -/
def saveLastFile (s : ProvState) (fsPath : String) : ProvState :=
  { s with lastFile := some fsPath,
           recentFiles := addToRecentFiles s.recentFiles fsPath }

/-- `_scheduleAutoSave` at wall-clock time `now`: `clearTimeout` on the stored
handle (if any), then `setTimeout(..., 1000)` and store the new handle. -/
def scheduleAutoSave (s : ProvState) (now : Nat) : ProvState :=
  let cleared :=
    match s.autoSaveTimeout with
    | some h => s.pendingTimers.erase h
    | none => s.pendingTimers
  { s with pendingTimers := cleared ++ [now + 1000],
           autoSaveTimeout := some (now + 1000) }

/-- The `contentChanged` message handler: store the new content and schedule
the debounced auto-save. -/
def contentChanged (s : ProvState) (content : String) (now : Nat) : ProvState :=
  scheduleAutoSave { s with currentContent := content } now

/-- The body of `_autoSave` (the timer callback): skip if no file is loaded;
otherwise write the current content.  An I/O failure of the write is caught
and ignored (`// Silent fail for auto-save`), so the state transition is the
same whether the write succeeds or not; `autoSaveAttempt` below exposes the
outcome-dependent observables. -/
def autoSaveBody (s : ProvState) : ProvState :=
  match s.currentFileUri with
  | none => s
  | some u => { s with writes := s.writes ++ [(u, s.currentContent)] }

/-- Deliver wall-clock time `t`: every pending timeout whose fire time has
arrived fires (its callback is `_autoSave`) and stops being pending. -/
def fireDue (s : ProvState) (t : Nat) : ProvState :=
  let due := s.pendingTimers.filter (fun f => f ≤ t)
  due.foldl (fun acc _ => autoSaveBody acc)
    { s with pendingTimers := s.pendingTimers.filter (fun f => ¬ f ≤ t) }

/-- Let every still-pending timeout fire (time goes to infinity). -/
def flushTimers (s : ProvState) : ProvState :=
  s.pendingTimers.foldl (fun acc _ => autoSaveBody acc)
    { s with pendingTimers := [] }

/-- A timed `contentChanged` event: time advances to the event's timestamp
(firing any timeout that was due before it), then the handler runs. -/
def notifyAt (s : ProvState) (ev : Nat × String) : ProvState :=
  contentChanged (fireDue s ev.1) ev.2 ev.1

/-- Run a sequence of timed `contentChanged` events. -/
def runChanges (s : ProvState) (evs : List (Nat × String)) : ProvState :=
  evs.foldl notifyAt s

/-- `_autoSave` with the write's outcome made explicit: returns the new state,
the notifications shown, and whether an exception escaped the method.  The
`catch` swallows the failure: no message, no escape. -/
def autoSaveAttempt (s : ProvState) (writeResult : Except String Unit) :
    ProvState × List Msg × Bool :=
  match s.currentFileUri with
  | none => (s, [], false)
  | some u =>
    match writeResult with
    | .ok _ => ({ s with writes := s.writes ++ [(u, s.currentContent)] }, [], false)
    | .error _ => (s, [], false)

/-- `saveFile` (manual save): warns when no file is open; otherwise performs
the write and surfaces success (`Saved …`) or failure (`Failed to save
file: …`) to the user. -/
def saveFile (s : ProvState) (writeResult : Except String Unit) :
    ProvState × List Msg :=
  match s.currentFileUri with
  | none => (s, [Msg.warning "No file is currently open"])
  | some u =>
    match writeResult with
    | .ok _ =>
      ({ s with writes := s.writes ++ [(u, s.currentContent)] },
       [Msg.info ("Saved " ++ getFilename u)])
    | .error e => (s, [Msg.error ("Failed to save file: " ++ e)])

/-- `_openFileByPath` (used by the recent-files picker): the read happens
first; on success the session fields are replaced and the path is recorded;
on failure the `catch` shows `Failed to open file: …` and the state is left
untouched.  The third component records whether an exception escaped. -/
def openFileByPath (s : ProvState) (filePath : String)
    (readResult : Except String String) : ProvState × List Msg × Bool :=
  match readResult with
  | .ok content =>
    (saveLastFile { s with currentFileUri := some filePath,
                           currentContent := content } filePath, [], false)
  | .error _ => (s, [Msg.error ("Failed to open file: " ++ filePath)], false)

/-- `openFile` (manual open via the file dialog): when the user picked a file,
`this._currentFileUri` is assigned BEFORE the `readFile` await, and the method
has no `try`/`catch`; a read failure therefore propagates out of the method
(third component `true`) with the uri already overwritten and no message
shown. -/
def openFile (s : ProvState) (picked : Option String)
    (readResult : Except String String) : ProvState × List Msg × Bool :=
  match picked with
  | none => (s, [], false)
  | some uri =>
    let s1 := { s with currentFileUri := some uri }
    match readResult with
    | .ok content =>
      (saveLastFile { s1 with currentContent := content } uri, [], false)
    | .error _ => (s1, [], true)

/-! ## The webview script: mermaid extraction and preview rendering -/

/-- JavaScript's character class from the scan (ASCII members of `\s`). -/
def jsWs (c : Char) : Bool :=
  c = ' ' || c = '\t' || c = '\n' || c = '\r' || c = '\x0b' || c = '\x0c'

/-- Strip the characters of `jsWs` from both ends (JavaScript `trim()`). -/
def trimChars (cs : List Char) : List Char :=
  ((cs.dropWhile jsWs).reverse.dropWhile jsWs).reverse

/-- Index of the last newline in a character list, if any. -/
def lastNl : List Char → Option Nat
  | [] => none
  | c :: cs =>
    match lastNl cs with
    | some i => some (i + 1)
    | none => if c = '\n' then some 0 else none

/-- Index of the first position where `pat` occurs as a contiguous block. -/
def findSeq (pat : List Char) : List Char → Option Nat
  | [] => if pat = [] then some 0 else none
  | c :: cs =>
    if pat.isPrefixOf (c :: cs) then some 0
    else (findSeq pat cs).map (· + 1)

/-- The three-backtick fence, built without backtick literals, as the source
does with `String.fromCharCode(96, 96, 96)`. -/
def fenceTicks : List Char := List.replicate 3 (Char.ofNat 96)

/-- The opening token of a mermaid fence. -/
def mermaidOpen : List Char := fenceTicks ++ "mermaid".toList

/-- Match the source's regex at the head of `cs`.  The regex reads
fence + `mermaid`, then greedy whitespace backtracked to its last newline,
then a non-greedy body up to the next fence.  On success, returns the
captured body and the characters after the match. -/
def matchMermaidAt (cs : List Char) : Option (List Char × List Char) :=
  if mermaidOpen.isPrefixOf cs then
    let r1 := cs.drop mermaidOpen.length
    match lastNl (r1.takeWhile jsWs) with
    | none => none
    | some i =>
      let r2 := r1.drop (i + 1)
      match findSeq fenceTicks r2 with
      | none => none
      | some j => some (r2.take j, r2.drop (j + 3))
  else none

/-- A `DiagramBlock` as pushed onto `mermaidBlocks` (the spec's
`DiagramBlock`): pass-local numeric id, trimmed source, declared kind. -/
structure MBlock where
  id : Nat
  code : String
  diagramType : String
  deriving DecidableEq, Repr

/-- The replacement emitted for a matched block. -/
def placeholderFor (n : Nat) : String :=
  "<div class=\"mermaid\" id=\"mermaid-" ++ toString n ++ "\"></div>"

/-- The callback body: trim the captured code and take its first
whitespace-delimited token as the declared kind (`'unknown'` when empty). -/
def mkBlock (ctr : Nat) (body : List Char) : MBlock :=
  let tcode := trimChars body
  let kind :=
    if tcode.isEmpty then "unknown"
    else String.mk (tcode.takeWhile (fun c => !jsWs c))
  ⟨ctr, String.mk tcode, kind⟩

/-- The global `replace` scan: at each position try the regex; on a match,
emit the placeholder, push the block with the next counter value, and resume
after the match; otherwise copy one character.  `fuel` bounds the recursion
(each step consumes at least one character). -/
def extractScan (fuel : Nat) (cs : List Char) (ctr : Nat) :
    String × List MBlock × Nat :=
  match fuel with
  | 0 => (String.mk cs, [], ctr)
  | fuel + 1 =>
    match cs with
    | [] => ("", [], ctr)
    | c :: rest =>
      match matchMermaidAt (c :: rest) with
      | some (body, remainder) =>
        let b := mkBlock ctr body
        let (txt, bs, ctr') := extractScan fuel remainder (ctr + 1)
        (placeholderFor ctr ++ txt, b :: bs, ctr')
      | none =>
        let (txt, bs, ctr') := extractScan fuel rest ctr
        (String.mk [c] ++ txt, bs, ctr')

/-- The extraction phase of `renderPreview` (the spec's
`DiagramExtractor.extract`), started from the current value of the
`mermaidId` counter; returns the processed text, the blocks, and the
counter's value after the pass. -/
def extractMermaid (text : String) (ctr : Nat) : String × List MBlock × Nat :=
  extractScan text.toList.length text.toList ctr

/-- `s` contains `pat` as a contiguous substring. -/
def hasSub (s pat : String) : Prop := ∃ l r, s = l ++ pat ++ r

/-- The two sequential `replace` calls escaping angle brackets in the error
display. -/
def escapeAngles (s : String) : String :=
  (s.replace "<" "&lt;").replace ">" "&gt;"

/-- The error markup up to the declared kind. -/
def errHtmlP1 : String :=
  "<div style=\"border: 1px solid #f44336; border-radius: 4px; padding: 8px; margin: 8px 0; text-align: left;\"><div style=\"color: #f44336; font-weight: bold; margin-bottom: 4px;\">Mermaid Error ("

/-- The error markup between the declared kind and the message. -/
def errHtmlP2 : String :=
  ")</div><div style=\"color: #ff9800; font-size: 12px; margin-bottom: 8px;\">"

/-- The error markup between the message and the escaped source. -/
def errHtmlP3 : String :=
  "</div><details style=\"font-size: 11px;\"><summary style=\"cursor: pointer; color: var(--vscode-descriptionForeground);\">Show code</summary><pre style=\"margin-top: 8px; padding: 8px; background: var(--vscode-textCodeBlock-background); overflow-x: auto; white-space: pre-wrap;\">"

/-- The closing error markup. -/
def errHtmlP4 : String := "</pre></details></div>"

/-- The inline error presentation built in the `catch` arm of the mermaid
loop, for a block of declared kind `kind`, error message `msg` and source
`code` (interleaving the literal markup with the kind, the message and the
angle-bracket-escaped source, as the source's string concatenation does). -/
def mermaidErrorHtml (kind msg code : String) : String :=
  errHtmlP1 ++ kind ++ errHtmlP2 ++ msg ++ errHtmlP3 ++ escapeAngles code ++ errHtmlP4

/-- One iteration of the mermaid loop for a block whose `mermaid.render`
outcome is `outcome`: on success the placeholder receives the svg, on failure
the `catch` installs the error presentation.  Total: no exception escapes. -/
def renderMermaidBlock (b : MBlock) (outcome : Except String String) : String :=
  match outcome with
  | .ok svg => svg
  | .error msg => mermaidErrorHtml b.diagramType msg b.code

/-- The whole mermaid loop of `renderPreview`: every block whose placeholder
element is present in the DOM (`present`) gets its placeholder's content set;
a missing element is skipped (`if (!element) continue`).  `render` is the
outcome of `mermaid.render` per block. -/
def renderMermaidLoop (bs : List MBlock) (present : Nat → Bool)
    (render : MBlock → Except String String) : List (Nat × String) :=
  bs.filterMap (fun b =>
    if present b.id then some (b.id, renderMermaidBlock b (render b)) else none)

/-! ## The webview state machine -/

/-- The webview's script state: the mutable script variables (`isPreviewMode`,
`hasFile`, `mermaidId`, `editor.value`), the DOM pieces the script drives
(`filename`, mode indicator, hidden flags, the preview contents), and, as an
observation of the latest render pass, the ids it assigned (`passIds`). -/
structure WState where
  hasFile : Bool
  isPreviewMode : Bool
  mermaidId : Nat
  editorValue : String
  filenameText : String
  modeIndicator : String
  placeholderHidden : Bool
  editorHidden : Bool
  previewHidden : Bool
  previewHtml : String
  diagramFills : List (Nat × String)
  passIds : List Nat
  deriving DecidableEq, Repr

/-- The webview after the script's initialisation. -/
def initW : WState :=
  { hasFile := false, isPreviewMode := false, mermaidId := 0,
    editorValue := "", filenameText := "No file open", modeIndicator := "Edit",
    placeholderHidden := false, editorHidden := true, previewHidden := true,
    previewHtml := "", diagramFills := [], passIds := [] }

/-- `renderPreview(text)` as a state transition.  `marked` is the external
Markdown renderer, `present` says which placeholder ids survive in the parsed
markup (`getElementById`), `mrender` is `mermaid.render`'s outcome per block.
The extraction starts from the CURRENT `mermaidId` (the function performs no
reset), and the counter keeps the value the pass left it at. -/
def renderPreviewW (marked : String → String) (present : String → Nat → Bool)
    (mrender : MBlock → Except String String) (s : WState) : WState :=
  let (ptxt, bs, ctr') := extractMermaid s.editorValue s.mermaidId
  let html := marked ptxt
  { s with mermaidId := ctr',
           previewHtml := html,
           diagramFills := renderMermaidLoop bs (present html) mrender,
           passIds := bs.map MBlock.id }

/-- `updateView()`: nothing without a file; otherwise show the pane for the
current mode, rendering the preview when entering it. -/
def updateView (marked : String → String) (present : String → Nat → Bool)
    (mrender : MBlock → Except String String) (s : WState) : WState :=
  if s.hasFile then
    if s.isPreviewMode then
      { renderPreviewW marked present mrender s with
          editorHidden := true, previewHidden := false,
          modeIndicator := "Preview" }
    else
      { s with previewHidden := true, editorHidden := false,
               modeIndicator := "Edit" }
  else s

/-- The messages the webview script receives from the extension host. -/
inductive WEvent where
  | loadContent (content : String) (filename : String)
  | togglePreview
  deriving DecidableEq, Repr

/-- The webview's `message` listener. -/
def stepW (marked : String → String) (present : String → Nat → Bool)
    (mrender : MBlock → Except String String) (s : WState) : WEvent → WState
  | .loadContent content fname =>
    { s with placeholderHidden := true, editorHidden := false,
             previewHidden := true, previewHtml := "", diagramFills := [],
             mermaidId := 0, editorValue := content, filenameText := fname,
             hasFile := true, isPreviewMode := false, modeIndicator := "Edit" }
  | .togglePreview =>
    if s.hasFile then
      updateView marked present mrender { s with isPreviewMode := !s.isPreviewMode }
    else s

/-- Run a sequence of messages through the webview. -/
def runW (marked : String → String) (present : String → Nat → Bool)
    (mrender : MBlock → Except String String) (s : WState)
    (es : List WEvent) : WState :=
  es.foldl (stepW marked present mrender) s

/-! ## Host command wiring (`extension.ts`) -/

/-- The outcome of a JavaScript method invocation on an object: either the
property is a function and the call proceeds, or it is `undefined` and the
call raises `TypeError: ... is not a function`. -/
inductive JsCall where
  | ok
  | typeErrorUndefined
  deriving DecidableEq, Repr

/-- Every method `MarkdownEditorProvider` declares
(`markdownEditorProvider.ts`). -/
def providerMethods : List String :=
  ["constructor", "resolveWebviewView", "_restoreContent", "_loadLastFile",
   "_saveLastFile", "_addToRecentFiles", "showRecentFiles", "_openFileByPath",
   "_scheduleAutoSave", "_autoSave", "openFile", "saveFile", "togglePreview",
   "_getFilename", "_getHtmlForWebview"]

/-- Dynamic method dispatch on the provider instance. -/
def invokeProviderMethod (name : String) : JsCall :=
  if name ∈ providerMethods then .ok else .typeErrorUndefined

/-- The `markdownSidebar.openFromExplorer` command handler
(`extension.ts`): it invokes `provider.openFileFromUri(uri)`. -/
def openFromExplorerCommand (_uri : String) : JsCall :=
  invokeProviderMethod "openFileFromUri"

/-! ## Concrete inputs used by witnesses and counterexamples -/

/-- A document holding exactly one mermaid fence. -/
def demoText : String := "```mermaid\ngraph TD\n```"

/-- A trivial stand-in for the external Markdown renderer. -/
def demoMarked : String → String := fun s => s

/-- A DOM in which every placeholder survives parsing. -/
def demoPresent : String → Nat → Bool := fun _ _ => true

/-- A `mermaid.render` that always succeeds. -/
def demoRenderOk : MBlock → Except String String := fun _ => .ok "<svg></svg>"

/-- Load a document, then enter, leave and re-enter preview: two render
passes on the same document. -/
def demoEvents : List WEvent :=
  [.loadContent demoText "f.md", .togglePreview, .togglePreview, .togglePreview]

/-- A diagram block whose render will fail. -/
def badBlock : MBlock := ⟨0, "a<b", "flow"⟩

/-- A diagram block whose render will succeed. -/
def goodBlock : MBlock := ⟨1, "graph TD", "graph"⟩

/-- A pass containing one failing and one succeeding block. -/
def demoBlocks : List MBlock := [badBlock, goodBlock]

/-- All placeholder ids present. -/
def demoPresentIds : Nat → Bool := fun _ => true

/-- `mermaid.render` failing on the first block only. -/
def demoRenderMixed : MBlock → Except String String :=
  fun b => if b.id = 0 then .error "boom" else .ok "<svg></svg>"

/-- A session with a file already open (prior in-memory state for the
manual-open scenario). -/
def preOpenState : ProvState :=
  { emptyProv with currentFileUri := some "/old.md", currentContent := "old text" }

/-- Eleven pairwise-distinct paths. -/
def elevenPaths : List String :=
  ["a", "b", "c", "d", "e", "f", "g", "h", "i", "j", "k"]

/-! ## Helper lemmas -/

/-- A single touch puts `p` at the front, exactly once. -/
lemma addToRecentFiles_head_count (l : List String) (p : String) :
    (addToRecentFiles l p).head? = some p ∧ (addToRecentFiles l p).count p = 1 := by
  unfold addToRecentFiles MAX_RECENT_FILES
  rw [show (10 : Nat) = 9 + 1 from rfl, List.take_succ_cons]
  refine ⟨rfl, ?_⟩
  rw [List.count_cons_self, List.count_eq_zero.mpr, Nat.zero_add]
  intro hmem
  have := List.mem_of_mem_take hmem
  simp at this

/-- Touching a path absent from the list is a plain bounded cons. -/
lemma addToRecentFiles_of_not_mem (l : List String) (p : String) (h : p ∉ l) :
    addToRecentFiles l p = (p :: l).take 10 := by
  unfold addToRecentFiles MAX_RECENT_FILES
  rw [List.filter_eq_self.mpr]
  intro a ha
  have hne : a ≠ p := fun hap => h (hap ▸ ha)
  simp [hne]

/-- Folding `touch` over pairwise-distinct paths keeps the ten most recent,
most-recent-first. -/
lemma foldl_addToRecentFiles_nodup :
    ∀ ps : List String, ps.Nodup → ps.foldl addToRecentFiles [] = ps.reverse.take 10 := by
  intro ps
  induction ps using List.reverseRecOn with
  | nil => intro _; rfl
  | append_singleton as a ih =>
    intro h
    have has : as.Nodup := h.of_append_left
    have hna : a ∉ as := by
      have hd := (List.nodup_append.mp h).2.2
      intro hmem
      exact hd hmem (by simp)
    rw [List.foldl_append, List.foldl_cons, List.foldl_nil, ih has]
    have hnotin : a ∉ as.reverse.take 10 := fun hmem => by
      have := List.mem_of_mem_take hmem
      exact hna (by simpa using this)
    rw [addToRecentFiles_of_not_mem _ _ hnotin, List.reverse_append]
    simp only [List.reverse_cons, List.reverse_nil, List.nil_append, List.singleton_append]
    rw [show (10 : Nat) = 9 + 1 from rfl, List.take_succ_cons, List.take_succ_cons,
        List.take_take]
    norm_num

/-- `autoSaveBody` does nothing while no file is loaded, so folding it keeps
the state fixed. -/
lemma foldl_autoSaveBody_none (l : List Nat) (st : ProvState)
    (h : st.currentFileUri = none) :
    l.foldl (fun acc _ => autoSaveBody acc) st = st := by
  induction l with
  | nil => rfl
  | cons x xs ih =>
    have hb : autoSaveBody st = st := by unfold autoSaveBody; rw [h]
    rw [List.foldl_cons, hb, ih]

/-- The scan assigns consecutive ids from the starting counter and leaves
the counter right past them. -/
lemma extractScan_spec :
    ∀ (fuel : Nat) (cs : List Char) (ctr : Nat),
      (extractScan fuel cs ctr).2.1.map MBlock.id =
        List.range' ctr (extractScan fuel cs ctr).2.1.length ∧
      (extractScan fuel cs ctr).2.2 = ctr + (extractScan fuel cs ctr).2.1.length := by
  intro fuel
  induction fuel with
  | zero => intro cs ctr; simp [extractScan]
  | succ fuel ih =>
    intro cs ctr
    cases cs with
    | nil => simp [extractScan]
    | cons c rest =>
      rw [extractScan]
      cases hm : matchMermaidAt (c :: rest) with
      | none =>
        simpa using ih rest ctr
      | some pr =>
        obtain ⟨body, remainder⟩ := pr
        rcases hE : extractScan fuel remainder (ctr + 1) with ⟨txt, bs, ctr2⟩
        have ihr := ih remainder (ctr + 1)
        rw [hE] at ihr
        simp only [hE]
        refine ⟨?_, ?_⟩
        · simp only [List.map_cons, List.length_cons]
          rw [List.range'_succ ctr bs.length 1]
          exact congrArg (ctr :: ·) (by simpa using ihr.1)
        · simp only [List.length_cons]
          have := ihr.2
          simp only at this
          omega

/-- The ids of one extraction pass started at `ctr`, as a list. -/
lemma extractMermaid_ids (text : String) (ctr : Nat) :
    (extractMermaid text ctr).2.1.map MBlock.id =
      List.range' ctr (extractMermaid text ctr).2.1.length ∧
    (extractMermaid text ctr).2.2 = ctr + (extractMermaid text ctr).2.1.length :=
  extractScan_spec _ _ _

/-! ## C2: the pass-local diagram id counter -/

/-- C2 counterexample: load a one-diagram document, render a preview pass,
leave preview and render a second pass — the second pass assigns id 1, not a
fresh namespace starting at 0: `renderPreview` performed no reset. -/
theorem render_pass_counter_not_reset :
    (runW demoMarked demoPresent demoRenderOk initW demoEvents).passIds = [1] ∧
    (runW demoMarked demoPresent demoRenderOk initW demoEvents).passIds ≠ [0] := by
  exact ⟨rfl, by decide⟩

/-- C2 amended: the counter is reset to 0 by the `loadContent` handler (when
a document is loaded), not by the render pass itself; a pass started at
counter `c` with `n` blocks assigns exactly the ids `c, c+1, …, c+n-1` and
leaves the counter at `c+n`, so the ids of consecutive passes on the same
document never collide — but they do not restart at 0. -/
theorem mermaid_ids_per_pass (marked : String → String)
    (present : String → Nat → Bool) (mrender : MBlock → Except String String)
    (s : WState) (content fname t1 t2 : String) (c : Nat) :
    (stepW marked present mrender s (.loadContent content fname)).mermaidId = 0 ∧
    (renderPreviewW marked present mrender s).mermaidId =
      (extractMermaid s.editorValue s.mermaidId).2.2 ∧
    (renderPreviewW marked present mrender s).passIds =
      (extractMermaid s.editorValue s.mermaidId).2.1.map MBlock.id ∧
    (extractMermaid t1 c).2.1.map MBlock.id =
      List.range' c (extractMermaid t1 c).2.1.length ∧
    (extractMermaid t1 c).2.2 = c + (extractMermaid t1 c).2.1.length ∧
    List.Disjoint ((extractMermaid t1 c).2.1.map MBlock.id)
      ((extractMermaid t2 (extractMermaid t1 c).2.2).2.1.map MBlock.id) := by
  have h1 := extractMermaid_ids t1 c
  have h2 := extractMermaid_ids t2 (extractMermaid t1 c).2.2
  refine ⟨rfl, ?_, ?_, h1.1, h1.2, ?_⟩
  · rcases hE : extractMermaid s.editorValue s.mermaidId with ⟨ptxt, bs, ctr'⟩
    simp [renderPreviewW, hE]
  · rcases hE : extractMermaid s.editorValue s.mermaidId with ⟨ptxt, bs, ctr'⟩
    simp [renderPreviewW, hE]
  · intro i hi1 hi2
    rw [h1.1, List.mem_range'_1] at hi1
    rw [h2.1, List.mem_range'_1, h1.2] at hi2
    omega

/-! ## C6: touching a path twice -/

/-- C6: for every path `p` and every list state, `touch p` twice in a row
yields a list containing `p` exactly once, at index 0 — and already a single
touch does, so touching a present path moves it to the front without
duplicating. -/
theorem touch_twice_front (l : List String) (p : String) :
    (addToRecentFiles (addToRecentFiles l p) p).head? = some p ∧
    (addToRecentFiles (addToRecentFiles l p) p).count p = 1 ∧
    (addToRecentFiles l p).head? = some p ∧
    (addToRecentFiles l p).count p = 1 :=
  ⟨(addToRecentFiles_head_count _ p).1, (addToRecentFiles_head_count _ p).2,
   (addToRecentFiles_head_count l p).1, (addToRecentFiles_head_count l p).2⟩

/-! ## C7: eleven distinct touches -/

/-- C7: starting from the empty list, touching `MAX + 1 = 11` distinct paths
leaves exactly `MAX = 10` entries, the most recent first (the reverse of the
touch order, truncated), and the oldest path is evicted. -/
theorem touch_eleven_distinct (ps : List String) (hn : ps.Nodup)
    (hl : ps.length = 11) :
    (ps.foldl addToRecentFiles []).length = 10 ∧
    ps.foldl addToRecentFiles [] = ps.reverse.take 10 ∧
    ∀ p0, ps.head? = some p0 → p0 ∉ ps.foldl addToRecentFiles [] := by
  have he := foldl_addToRecentFiles_nodup ps hn
  refine ⟨?_, he, ?_⟩
  · rw [he]; simp [hl]
  · intro p0 hp0
    obtain ⟨q, rest, rfl⟩ :=
      List.exists_cons_of_ne_nil (l := ps) (by rintro rfl; simp at hp0)
    have hq : q = p0 := by simpa using hp0
    have hrl : rest.length = 10 := by
      have := hl
      simp only [List.length_cons] at this
      omega
    rw [he, List.reverse_cons,
        show (10 : Nat) = rest.reverse.length by simp [hrl],
        List.take_left]
    have hnr : p0 ∉ rest := hq ▸ (List.nodup_cons.mp hn).1
    simpa using hnr

/-- Witness for C7 at eleven concrete paths. -/
theorem touch_eleven_distinct_witness :
    (elevenPaths.foldl addToRecentFiles []).length = 10 ∧
    "a" ∉ elevenPaths.foldl addToRecentFiles [] := by
  have h := touch_eleven_distinct elevenPaths (by decide) (by decide)
  exact ⟨h.1, h.2.2 "a" rfl⟩

/-! ## C8: auto-save silence versus manual-save visibility -/

/-- C8: an I/O failure inside the auto-save callback is swallowed — no
notification, no escaping exception — whereas a manual save with a file
loaded always shows exactly one notification: success (`Saved …`) when the
write succeeds, failure (`Failed to save file: …`) when it fails. -/
theorem save_visibility_asymmetry (s : ProvState) (u : String)
    (w : Except String Unit) :
    (autoSaveAttempt s w).2.1 = [] ∧
    (autoSaveAttempt s w).2.2 = false ∧
    (saveFile { s with currentFileUri := some u } w).2 =
      [match w with
       | .ok _ => Msg.info ("Saved " ++ getFilename u)
       | .error e => Msg.error ("Failed to save file: " ++ e)] := by
  refine ⟨?_, ?_, ?_⟩ <;>
    cases hs : s.currentFileUri <;> cases w <;>
      simp [autoSaveAttempt, saveFile, hs]

/-! ## C10: the open-from-context command -/

/-- C10: the `markdownSidebar.openFromExplorer` handler calls
`provider.openFileFromUri(uri)`, but the provider defines no such method, so
for every uri the invocation hits an undefined property and fails. -/
theorem openFromExplorer_undefined (uri : String) :
    openFromExplorerCommand uri = JsCall.typeErrorUndefined ∧
    "openFileFromUri" ∉ providerMethods := by
  exact ⟨rfl, by decide⟩

/-! ## C1: `contentChanged` while the session is `Empty` -/

/-- C1 counterexample: with no file loaded, the `contentChanged` handler does
start an auto-save timeout (the claim asserts none is started). -/
theorem contentChanged_empty_starts_timer :
    (contentChanged emptyProv "hello" 0).pendingTimers = [1000] ∧
    (contentChanged emptyProv "hello" 0).pendingTimers ≠ [] := by
  exact ⟨rfl, by decide⟩

/-- C1 amended: `contentChanged` while no file is loaded is crash-free and
causes no persistence write — the handler stores the text and does start the
debounce timeout, but the timer's expiry skips the save because no file is
loaded, leaving the write log and the (absent) file identity unchanged. -/
theorem updateText_empty_amended (s : ProvState) (c : String) (t : Nat)
    (h : s.currentFileUri = none) :
    (contentChanged s c t).pendingTimers ≠ [] ∧
    (contentChanged s c t).currentContent = c ∧
    (flushTimers (contentChanged s c t)).writes = s.writes ∧
    (flushTimers (contentChanged s c t)).currentFileUri = none := by
  have huri : (contentChanged s c t).currentFileUri = none := by
    simp [contentChanged, scheduleAutoSave, h]
  have hflush : flushTimers (contentChanged s c t) =
      { contentChanged s c t with pendingTimers := [] } := by
    unfold flushTimers
    exact foldl_autoSaveBody_none _ _ huri
  refine ⟨?_, ?_, ?_, ?_⟩
  · simp [contentChanged, scheduleAutoSave]
  · simp [contentChanged, scheduleAutoSave]
  · rw [hflush]; simp [contentChanged, scheduleAutoSave]
  · rw [hflush]; exact huri

/-- Witness for C1's amended statement at the empty session. -/
theorem updateText_empty_amended_witness :
    (contentChanged emptyProv "hi" 0).pendingTimers ≠ [] ∧
    (flushTimers (contentChanged emptyProv "hi" 0)).writes = emptyProv.writes := by
  have h := updateText_empty_amended emptyProv "hi" 0 rfl
  exact ⟨h.1, h.2.2.1⟩

/-! ## C3: manual open hitting an I/O error -/

/-- C3: at a concrete failing read, the dialog-driven `openFile` lets the
exception escape (no user-visible message) after already overwriting the
current file identity — while the recent-files path `_openFileByPath`
conforms to the claim (message shown, state preserved, nothing escapes). -/
theorem openFile_read_failure_bug :
    (openFile preOpenState (some "/new.md") (Except.error "EACCES")).2.2 = true ∧
    (openFile preOpenState (some "/new.md") (Except.error "EACCES")).2.1 = [] ∧
    (openFile preOpenState (some "/new.md") (Except.error "EACCES")).1.currentFileUri
      = some "/new.md" ∧
    (openFile preOpenState (some "/new.md") (Except.error "EACCES")).1 ≠ preOpenState ∧
    (openFileByPath preOpenState "/new.md" (Except.error "EACCES")).1 = preOpenState ∧
    (openFileByPath preOpenState "/new.md" (Except.error "EACCES")).2.1 =
      [Msg.error "Failed to open file: /new.md"] ∧
    (openFileByPath preOpenState "/new.md" (Except.error "EACCES")).2.2 = false := by
  refine ⟨rfl, rfl, rfl, by decide, rfl, rfl, rfl⟩

/-! ## C9: preview mode requires a loaded document -/

/-- A render pass never touches `hasFile`. -/
lemma renderPreviewW_hasFile (marked : String → String)
    (present : String → Nat → Bool) (mrender : MBlock → Except String String)
    (t : WState) : (renderPreviewW marked present mrender t).hasFile = t.hasFile := by
  rcases hE : extractMermaid t.editorValue t.mermaidId with ⟨ptxt, bs, ctr'⟩
  simp [renderPreviewW, hE]

/-- `updateView` never touches `hasFile`. -/
lemma updateView_hasFile (marked : String → String)
    (present : String → Nat → Bool) (mrender : MBlock → Except String String)
    (t : WState) : (updateView marked present mrender t).hasFile = t.hasFile := by
  unfold updateView
  split
  · split
    · simpa using renderPreviewW_hasFile marked present mrender t
    · rfl
  · rfl

/-- Once a file is loaded, it stays loaded across any event. -/
lemma stepW_hasFile_mono (marked : String → String)
    (present : String → Nat → Bool) (mrender : MBlock → Except String String)
    (s : WState) (e : WEvent) (h : s.hasFile = true) :
    (stepW marked present mrender s e).hasFile = true := by
  cases e with
  | loadContent c f => rfl
  | togglePreview =>
    simp only [stepW, h, if_true]
    rw [updateView_hasFile]

/-- `hasFile` stays true along any run. -/
lemma runW_hasFile_mono (marked : String → String)
    (present : String → Nat → Bool) (mrender : MBlock → Except String String) :
    ∀ (es : List WEvent) (s : WState), s.hasFile = true →
      (runW marked present mrender s es).hasFile = true := by
  intro es
  induction es with
  | nil => intro s h; exact h
  | cons e es ih =>
    intro s h
    exact ih _ (stepW_hasFile_mono marked present mrender s e h)

/-- With no file loaded, an event either leaves the state untouched or loads
a file. -/
lemma stepW_noFile (marked : String → String)
    (present : String → Nat → Bool) (mrender : MBlock → Except String String)
    (s : WState) (e : WEvent) (h : s.hasFile = false) :
    stepW marked present mrender s e = s ∨
      (stepW marked present mrender s e).hasFile = true := by
  cases e with
  | loadContent c f => right; rfl
  | togglePreview => left; simp [stepW, h]

/-- With no file loaded, a whole run either leaves the state untouched or
ends with a file loaded. -/
lemma runW_noFile (marked : String → String)
    (present : String → Nat → Bool) (mrender : MBlock → Except String String) :
    ∀ (es : List WEvent) (s : WState), s.hasFile = false →
      runW marked present mrender s es = s ∨
        (runW marked present mrender s es).hasFile = true := by
  intro es
  induction es with
  | nil => intro s _; left; rfl
  | cons e es ih =>
    intro s h
    rcases stepW_noFile marked present mrender s e h with heq | htrue
    · have : runW marked present mrender s (e :: es) =
          runW marked present mrender s es := by
        show runW marked present mrender (stepW marked present mrender s e) es = _
        rw [heq]
      rw [this]
      exact ih s h
    · right
      exact runW_hasFile_mono marked present mrender es _ htrue

/-- C9: in every state reachable from the initial webview state, preview mode
implies a loaded document; and a run that never loads a document leaves the
webview exactly in its initial Edit/placeholder state. -/
theorem preview_requires_file (marked : String → String)
    (present : String → Nat → Bool) (mrender : MBlock → Except String String)
    (es : List WEvent) :
    ((runW marked present mrender initW es).isPreviewMode
        && !(runW marked present mrender initW es).hasFile) = false ∧
    (runW marked present mrender initW es = initW ∨
      (runW marked present mrender initW es).hasFile = true) := by
  have h := runW_noFile marked present mrender es initW rfl
  constructor
  · rcases h with heq | htrue
    · rw [heq]; rfl
    · rw [htrue]; simp
  · exact h

/-! ## C5: per-diagram failure isolation -/

/-- The mermaid loop touches exactly the blocks whose placeholder is present:
one resolved region per present block, failures included. -/
lemma renderMermaidLoop_length (bs : List MBlock) (present : Nat → Bool)
    (render : MBlock → Except String String) :
    (renderMermaidLoop bs present render).length
      = (bs.filter fun x => present x.id).length := by
  induction bs with
  | nil => rfl
  | cons b bs ih =>
    by_cases hp : present b.id <;>
      simp [renderMermaidLoop, List.filterMap_cons, List.filter_cons, hp] <;>
      simpa [renderMermaidLoop] using ih

/-- Every present block's placeholder receives that block's own result. -/
lemma renderMermaidLoop_mem (bs : List MBlock) (present : Nat → Bool)
    (render : MBlock → Except String String) (b : MBlock) (hb : b ∈ bs)
    (hp : present b.id = true) :
    (b.id, renderMermaidBlock b (render b)) ∈ renderMermaidLoop bs present render := by
  unfold renderMermaidLoop
  exact List.mem_filterMap.mpr ⟨b, hb, by simp [hp]⟩

/-- C5: a failing diagram block does not abort the pass — every present
block, the failing one included, still gets exactly its own resolved region,
no exception escapes (the loop is a total function), and the failing block's
region is the inline error presentation, which embeds the declared kind, the
error message, and the angle-bracket-escaped original source. -/
theorem mermaid_failure_isolated (bs : List MBlock) (present : Nat → Bool)
    (render : MBlock → Except String String) (b : MBlock) (hb : b ∈ bs)
    (hp : present b.id = true) (m : String) (hf : render b = .error m) :
    (renderMermaidLoop bs present render).length
      = (bs.filter fun x => present x.id).length ∧
    (∀ b2 ∈ bs, present b2.id = true →
      (b2.id, renderMermaidBlock b2 (render b2)) ∈ renderMermaidLoop bs present render) ∧
    (b.id, mermaidErrorHtml b.diagramType m b.code) ∈ renderMermaidLoop bs present render ∧
    hasSub (mermaidErrorHtml b.diagramType m b.code) b.diagramType ∧
    hasSub (mermaidErrorHtml b.diagramType m b.code) m ∧
    hasSub (mermaidErrorHtml b.diagramType m b.code) (escapeAngles b.code) := by
  refine ⟨renderMermaidLoop_length bs present render,
          fun b2 hb2 hp2 => renderMermaidLoop_mem bs present render b2 hb2 hp2,
          ?_, ?_, ?_, ?_⟩
  · have := renderMermaidLoop_mem bs present render b hb hp
    rw [show renderMermaidBlock b (render b)
          = mermaidErrorHtml b.diagramType m b.code by
        rw [hf]; rfl] at this
    exact this
  · exact ⟨errHtmlP1,
      errHtmlP2 ++ m ++ errHtmlP3 ++ escapeAngles b.code ++ errHtmlP4,
      by simp [mermaidErrorHtml, String.append_assoc]⟩
  · exact ⟨errHtmlP1 ++ b.diagramType ++ errHtmlP2,
      errHtmlP3 ++ escapeAngles b.code ++ errHtmlP4,
      by simp [mermaidErrorHtml, String.append_assoc]⟩
  · exact ⟨errHtmlP1 ++ b.diagramType ++ errHtmlP2 ++ m ++ errHtmlP3,
      errHtmlP4, by simp [mermaidErrorHtml, String.append_assoc]⟩

/-- Witness for C5: a pass with one failing and one succeeding block — the
failing block's error region and the sibling's success region both appear. -/
theorem mermaid_failure_isolated_witness :
    (0, mermaidErrorHtml "flow" "boom" "a<b") ∈
      renderMermaidLoop demoBlocks demoPresentIds demoRenderMixed ∧
    (1, "<svg></svg>") ∈ renderMermaidLoop demoBlocks demoPresentIds demoRenderMixed ∧
    hasSub (mermaidErrorHtml "flow" "boom" "a<b") "boom" := by
  have h := mermaid_failure_isolated demoBlocks demoPresentIds demoRenderMixed
    badBlock (by simp [demoBlocks]) rfl "boom" rfl
  refine ⟨h.2.2.1, ?_, h.2.2.2.2.1⟩
  have hg := h.2.1 goodBlock (by simp [demoBlocks]) rfl
  simpa [goodBlock, demoRenderMixed, renderMermaidBlock] using hg

/-! ## C4: debounced auto-save -/

/-- A change notification arriving before the pending timeout (or with none
pending) cancels it and arms a single fresh one, without firing anything. -/
lemma notifyAt_fresh (s : ProvState) (t : Nat) (x : String)
    (h : s.pendingTimers = [] ∨
      ∃ f, s.autoSaveTimeout = some f ∧ s.pendingTimers = [f] ∧ t < f) :
    notifyAt s (t, x) =
      { s with currentContent := x, pendingTimers := [t + 1000],
               autoSaveTimeout := some (t + 1000) } := by
  rcases h with h1 | ⟨f, hA, hT, hlt⟩
  · cases hA : s.autoSaveTimeout <;>
      simp [notifyAt, fireDue, contentChanged, scheduleAutoSave, h1, hA]
  · have hnle : ¬ f ≤ t := by omega
    simp [notifyAt, fireDue, contentChanged, scheduleAutoSave, hA, hT, hnle,
          List.erase_cons_head]
    omega

/-- Running a nonempty burst of change events, each arriving within the
quiet period of its predecessor, performs no write and leaves exactly one
armed timeout carrying the last event's content. -/
lemma runChanges_cons :
    ∀ (rest : List (Nat × String)) (t : Nat) (x : String) (s : ProvState),
      (s.pendingTimers = [] ∨
        ∃ f, s.autoSaveTimeout = some f ∧ s.pendingTimers = [f] ∧ t < f) →
      List.Chain' (fun a b => b.1 < a.1 + 1000) ((t, x) :: rest) →
      runChanges s ((t, x) :: rest) =
        { s with currentContent := (rest.getLastD (t, x)).2,
                 pendingTimers := [(rest.getLastD (t, x)).1 + 1000],
                 autoSaveTimeout := some ((rest.getLastD (t, x)).1 + 1000) } := by
  intro rest
  induction rest with
  | nil =>
    intro t x s hP _
    show notifyAt s (t, x) = _
    rw [notifyAt_fresh s t x hP]
    rfl
  | cons p rest ih =>
    intro t x s hP hc
    obtain ⟨t2, x2⟩ := p
    have hr : t2 < t + 1000 := (List.chain'_cons.mp hc).1
    have hstep : runChanges s ((t, x) :: (t2, x2) :: rest) =
        runChanges (notifyAt s (t, x)) ((t2, x2) :: rest) := rfl
    rw [hstep, notifyAt_fresh s t x hP,
        ih t2 x2 _ (Or.inr ⟨t + 1000, rfl, rfl, hr⟩) (List.chain'_cons.mp hc).2]
    rw [List.getLastD_cons]

/-- C4: `k ≥ 1` change notifications inside the quiet period produce no
write while the burst lasts; once the final timer expires, exactly one write
happens and it carries the text of the last notification; and after every
prefix of the burst at most one timer is pending. -/
theorem autosave_debounce (u x0 : String) (t0 : Nat)
    (rest : List (Nat × String))
    (hc : List.Chain' (fun a b => b.1 < a.1 + 1000) ((t0, x0) :: rest)) :
    (runChanges { emptyProv with currentFileUri := some u }
        ((t0, x0) :: rest)).writes = [] ∧
    (flushTimers (runChanges { emptyProv with currentFileUri := some u }
        ((t0, x0) :: rest))).writes = [(u, (rest.getLastD (t0, x0)).2)] ∧
    ∀ l1 l2, (t0, x0) :: rest = l1 ++ l2 →
      (runChanges { emptyProv with currentFileUri := some u }
          l1).pendingTimers.length ≤ 1 := by
  have hrun := runChanges_cons rest t0 x0
    { emptyProv with currentFileUri := some u } (Or.inl rfl) hc
  refine ⟨?_, ?_, ?_⟩
  · rw [hrun]
    rfl
  · rw [hrun]
    simp [flushTimers, autoSaveBody, emptyProv]
  · intro l1 l2 heq
    cases l1 with
    | nil => simp [runChanges, emptyProv]
    | cons p l1' =>
      rw [List.cons_append] at heq
      injection heq with h1 h2
      obtain rfl : p = (t0, x0) := h1.symm
      have hc1 : List.Chain' (fun a b => b.1 < a.1 + 1000) ((t0, x0) :: l1') := by
        have hc' : List.Chain' (fun a b => b.1 < a.1 + 1000)
            (((t0, x0) :: l1') ++ l2) := by
          rw [List.cons_append, ← h2]
          exact hc
        exact (List.chain'_append.mp hc').1
      rw [runChanges_cons l1' t0 x0
        { emptyProv with currentFileUri := some u } (Or.inl rfl) hc1]
      simp

/-- Witness for C4: three changes at 0ms, 500ms, 900ms produce a single
write of the last text once the quiet period elapses, and none before. -/
theorem autosave_debounce_witness :
    (runChanges { emptyProv with currentFileUri := some "/f.md" }
        [(0, "a"), (500, "b"), (900, "c")]).writes = [] ∧
    (flushTimers (runChanges { emptyProv with currentFileUri := some "/f.md" }
        [(0, "a"), (500, "b"), (900, "c")])).writes = [("/f.md", "c")] := by
  have h := autosave_debounce "/f.md" "a" 0 [(500, "b"), (900, "c")]
    (by
      refine List.chain'_cons.mpr ⟨by norm_num, ?_⟩
      refine List.chain'_cons.mpr ⟨by norm_num, ?_⟩
      exact List.chain'_singleton _)
  exact ⟨h.1, h.2.1⟩

end MarkdownSidebar
